import Mathlib

/-
  Verification of the bindle `FileStorage` engine (src/src/storage.rs).

  The Rust code is embedded shallowly: the filesystem is an explicit map from
  component-lists to entries, every operation is a pure function from a
  filesystem state to a result together with the new state, and the external
  collaborators (the SHA-256 hex digest from the `sha2` crate and the search
  index capability) are passed in as function parameters.  TOML serialization
  is modelled as typed file contents (the spec requires round-trip fidelity
  for every field, and the serde data types live in the crate root, outside
  the provided source).
-/

namespace Bindle

/-- Modelled from the spec: `BindleSpec` (spec section 3); the struct itself is
defined in the crate root, which is not part of the provided source. -/
structure BindleSpec where
  name : String
  version : String
  description : Option String
  authors : Option (List String)
deriving DecidableEq

/-- Modelled from the spec: `Label` (spec section 3); annotations are an
optional string-to-string mapping, modelled as an association list. -/
structure Label where
  sha256 : String
  media_type : String
  name : String
  size : Option Int
  annotations : Option (List (String × String))
deriving DecidableEq

/-- Modelled from the spec: a parcel reference inside an invoice; the
`conditions` value is an opaque pass-through, modelled as a string. -/
structure Parcel where
  label : Label
  conditions : Option String
deriving DecidableEq

/-- Modelled from the spec: `Invoice` (spec section 3); `group` is opaque. -/
structure Invoice where
  bindle_version : String
  bindle : BindleSpec
  yanked : Option Bool
  annotations : Option (List (String × String))
  parcels : Option (List Parcel)
  group : Option String
deriving DecidableEq

/-- The kinds of raw I/O errors the model distinguishes, mirroring the
`std::io::ErrorKind` values the code can observe: `AlreadyExists` from
exclusive creation, `NotFound` from opening a missing file, and anything
else. -/
inductive IOErrorKind where
  | alreadyExists
  | notFound
  | other
deriving DecidableEq

/-- `StorageError` from storage.rs.  The Rust variant `IO(std::io::Error)` is
rendered as `ioErr` carrying the observed error kind. -/
inductive StorageError where
  | Yanked
  | CreateYanked
  | NotFound
  | ioErr (k : IOErrorKind)
  | Exists
  | Malformed
  | Unserializable
deriving DecidableEq

/-
  Rust `std::path` parsing (Unix), as used by `get_yanked_invoice` on the
  identifier string: `Path::new(&id).parent()` and `Path::new(&id).file_name()`.
  A path splits on the separator into segments; empty segments and interior
  "." segments are not components; a leading "." is the `CurDir` component and
  a leading separator is the `RootDir` component; ".." is the `ParentDir`
  component.  `file_name` is the final component when it is a normal segment,
  `parent` is the original string up to the final component with trailing
  separators and "." segments trimmed (`None` when the path is empty or only a
  root).
-/

/-- Split a character list at every separator character. -/
def splitSegsAux : List Char → List Char → List String
  | [], acc => [String.mk acc.reverse]
  | c :: cs, acc =>
    if c = '/' then String.mk acc.reverse :: splitSegsAux cs []
    else splitSegsAux cs (c :: acc)

/-- The raw separator-delimited segments of a path string. -/
def rawSegs (s : String) : List String :=
  splitSegsAux s.toList []

/-- A segment that is a real path component: not empty and not ".". -/
def isRealSeg (x : String) : Bool :=
  decide (x ≠ "") && decide (x ≠ ".")

/-- Split a segment list at its last real component: returns the segments
before it together with the component, or `none` when there is none. -/
def splitLastReal : List String → Option (List String × String)
  | [] => none
  | x :: xs =>
    match splitLastReal xs with
    | some (pre, s) => some (x :: pre, s)
    | none => if isRealSeg x then some ([], x) else none

/-- Drop trailing segments that are empty or "." (a "." at position zero is
the `CurDir` component and is kept). -/
def trimRightAux : List String → Nat → List String
  | [], _ => []
  | x :: xs, i =>
    match trimRightAux xs (i + 1) with
    | [] => if x = "" ∨ (x = "." ∧ 0 < i) then [] else [x]
    | ys => x :: ys

/-- Trim trailing non-component segments from a prefix of segments. -/
def trimRightSegs (l : List String) : List String :=
  trimRightAux l 0

/-- Whether the path string starts with the separator (has a root). -/
def hasRoot (s : String) : Bool :=
  match s.toList with
  | c :: _ => decide (c = '/')
  | [] => false

/-- Whether the path starts with the `CurDir` component ".". -/
def frontCurDir (s : String) : Bool :=
  match rawSegs s with
  | x :: _ => decide (x = ".")
  | [] => false

/-- Rejoin raw segments with the separator. -/
def joinSegs : List String → String
  | [] => ""
  | [x] => x
  | x :: y :: xs => x ++ "/" ++ joinSegs (y :: xs)

/-- `Path::new(s).parent()` rendered as a string via `to_str`. -/
def pathParent (s : String) : Option String :=
  match splitLastReal (rawSegs s) with
  | some (pre, _) =>
    let t := trimRightSegs pre
    if t.isEmpty && hasRoot s then some "/" else some (joinSegs t)
  | none => if frontCurDir s then some "" else none

/-- `Path::new(s).file_name()` rendered as a string via `to_str`. -/
def pathFileName (s : String) : Option String :=
  match splitLastReal (rawSegs s) with
  | some (_, seg) => if seg = ".." then none else some seg
  | none => none

/-- The typed content of a regular file: a serialized invoice manifest, a
serialized label, a raw byte blob, or unparsable junk. -/
inductive FileData where
  | invoiceToml (inv : Invoice)
  | labelToml (l : Label)
  | blob (bytes : List Nat)
  | junk
deriving DecidableEq

/-- A filesystem entry: a regular file with content, or a directory. -/
inductive FsEntry where
  | file (d : FileData)
  | dir
deriving DecidableEq

/-- Whether an entry is a directory (Rust `Metadata::is_dir`). -/
def FsEntry.isDir : FsEntry → Bool
  | FsEntry.dir => true
  | FsEntry.file _ => false

/-- The filesystem state: entries keyed by component lists, plus the set of
paths on which a metadata query spuriously errors (permission failures and the
like); lookups of entries themselves are exact-path. -/
structure FS where
  entries : List (List String × FsEntry)
  statErrs : List (List String)
deriving DecidableEq

/-- First-match lookup in an entry list. -/
def lookupEntries : List (List String × FsEntry) → List String → Option FsEntry
  | [], _ => none
  | q :: rest, p => if q.1 = p then some q.2 else lookupEntries rest p

/-- Exact-path lookup of an entry. -/
def FS.lookup (fs : FS) (p : List String) : Option FsEntry :=
  lookupEntries fs.entries p

/-- Create or replace the entry at a path. -/
def FS.insert (fs : FS) (p : List String) (e : FsEntry) : FS :=
  { fs with entries := (p, e) :: fs.entries }

/-- `fs::metadata`: errors on a spuriously failing path or a missing entry,
otherwise returns the entry. -/
def FS.metadata (fs : FS) (p : List String) : Except Unit FsEntry :=
  if p ∈ fs.statErrs then Except.error ()
  else
    match fs.lookup p with
    | some e => Except.ok e
    | none => Except.error ()

/-- `Path::is_dir`: metadata with any error swallowed to `false`. -/
def FS.isDir (fs : FS) (p : List String) : Bool :=
  match fs.metadata p with
  | Except.ok e => e.isDir
  | Except.error _ => false

/-- `Path::is_file`: metadata with any error swallowed to `false`. -/
def FS.isFile (fs : FS) (p : List String) : Bool :=
  match fs.metadata p with
  | Except.ok (FsEntry.file _) => true
  | _ => false

/-- One step of `create_dir_all`: succeed when the path is already a
directory, fail when it is occupied by a regular file, create it otherwise. -/
def FS.ensureDir (fs : FS) (p : List String) : Except IOErrorKind FS :=
  match fs.lookup p with
  | some FsEntry.dir => Except.ok fs
  | some (FsEntry.file _) => Except.error IOErrorKind.other
  | none => Except.ok (fs.insert p FsEntry.dir)

/-- Ensure the first `n` prefixes of a path are directories, shortest first. -/
def FS.createDirAllAux (p : List String) : Nat → FS → Except IOErrorKind FS
  | 0, fs => Except.ok fs
  | n + 1, fs =>
    match FS.createDirAllAux p n fs with
    | Except.error e => Except.error e
    | Except.ok fs1 => fs1.ensureDir (p.take (n + 1))

/-- `tokio::fs::create_dir_all`: create the directory and all ancestors. -/
def FS.createDirAll (fs : FS) (p : List String) : Except IOErrorKind FS :=
  FS.createDirAllAux p p.length fs

/-- Exclusive creation (`OpenOptions::create_new`) followed by writing the
serialized content: fails with `alreadyExists` when any entry occupies the
path, with `notFound` when the parent directory is missing. -/
def FS.createNew (fs : FS) (p : List String) (d : FileData) : Except IOErrorKind FS :=
  match fs.lookup p with
  | some _ => Except.error IOErrorKind.alreadyExists
  | none =>
    match fs.lookup p.dropLast with
    | some FsEntry.dir => Except.ok (fs.insert p (FsEntry.file d))
    | _ => Except.error IOErrorKind.notFound

/-- `std::fs::write`: create or truncate-and-overwrite the file; fails when
the path is a directory or the parent directory is missing. -/
def FS.writeFile (fs : FS) (p : List String) (d : FileData) : Except IOErrorKind FS :=
  match fs.lookup p with
  | some FsEntry.dir => Except.error IOErrorKind.other
  | some (FsEntry.file _) => Except.ok (fs.insert p (FsEntry.file d))
  | none =>
    match fs.lookup p.dropLast with
    | some FsEntry.dir => Except.ok (fs.insert p (FsEntry.file d))
    | _ => Except.error IOErrorKind.notFound

/-- `std::fs::read_to_string`: return the content of the regular file at the
path, an I/O error otherwise. -/
def FS.readFile (fs : FS) (p : List String) : Except IOErrorKind FileData :=
  match fs.lookup p with
  | some (FsEntry.file d) => Except.ok d
  | some FsEntry.dir => Except.error IOErrorKind.other
  | none => Except.error IOErrorKind.notFound

/-- `FileStorage` from storage.rs: the root directory (as components) plus the
SHA-256 hex digest function of the external `sha2` crate, passed in abstractly
(its output on `name ++ version` is the canonical invoice name). -/
structure FileStorage where
  root : List String
  sha256hex : String → String

/-- `FileStorage::invoice_path`: `root/invoices/<invoice_id>`. -/
def FileStorage.invoice_path (st : FileStorage) (invoice_id : String) : List String :=
  st.root ++ ["invoices", invoice_id]

/-- `FileStorage::invoice_toml_path`: the `invoice.toml` inside the invoice
directory. -/
def FileStorage.invoice_toml_path (st : FileStorage) (invoice_id : String) : List String :=
  st.invoice_path invoice_id ++ ["invoice.toml"]

/-- `FileStorage::parcel_path`: `root/parcels/<parcel_id>`. -/
def FileStorage.parcel_path (st : FileStorage) (parcel_id : String) : List String :=
  st.root ++ ["parcels", parcel_id]

/-- `FileStorage::label_toml_path`: the `label.toml` inside the parcel
directory. -/
def FileStorage.label_toml_path (st : FileStorage) (parcel_id : String) : List String :=
  st.parcel_path parcel_id ++ ["label.toml"]

/-- `FileStorage::parcel_data_path`: the `parcel.dat` inside the parcel
directory. -/
def FileStorage.parcel_data_path (st : FileStorage) (parcel_id : String) : List String :=
  st.parcel_path parcel_id ++ ["parcel.dat"]

/-- `canonical_invoice_name_strings`: the hex SHA-256 of the raw concatenation
of name and version bytes, with no separator. -/
def FileStorage.canonical_invoice_name_strings (st : FileStorage) (name version : String) : String :=
  st.sha256hex (name ++ version)

/-- `canonical_invoice_name`: canonical name from the invoice's own bindle
name and version. -/
def FileStorage.canonical_invoice_name (st : FileStorage) (inv : Invoice) : String :=
  st.canonical_invoice_name_strings inv.bindle.name inv.bindle.version

/-- Modelled from the spec: the identifier string accepted by the read
operations (spec section 6), built as `<name>/<version>`; the helper itself
(`invoice_to_name`) lives in the crate root, outside the provided source. -/
def invoice_to_name (inv : Invoice) : String :=
  inv.bindle.name ++ "/" ++ inv.bindle.version

/-- The behavior of the injected index capability, storage.rs's only use of
the `Search` collaborator: index an invoice, succeeding or yielding an error
message. -/
def IndexFn : Type :=
  Invoice → Except String Unit

/-- The outcome of `create_invoice`: the returned value, the final filesystem
state, the invoices handed to the index capability, and the log lines emitted
for swallowed index errors. -/
structure CreateOut where
  res : Except StorageError (List Label)
  fs : FS
  indexed : List Invoice
  log : List String

/-- The missing-parcel scan of `create_invoice` (storage.rs lines 196-221):
for each referenced parcel, stat its parcel path; the label is reported
missing when the stat errors or the entry is not a directory.  The concurrent
scatter/gather reads a fixed state and `join_all` keeps input order, so the
scan is a `filterMap`. -/
def scanMissing (st : FileStorage) (fs : FS) (ps : List Parcel) : List Label :=
  ps.filterMap (fun k =>
    match fs.metadata (st.parcel_path k.label.sha256) with
    | Except.ok e => if e.isDir then none else some k.label
    | Except.error _ => some k.label)

/-- The manifest destination of an invoice, from its own (name, version). -/
def invDest (st : FileStorage) (inv : Invoice) : List String :=
  st.invoice_toml_path (st.canonical_invoice_name inv)

/-- The invoice-directory step of `create_invoice` (storage.rs lines 160-168):
skip when the directory exists, fail with `Exists` when a regular file
occupies the path, create the directory chain otherwise. -/
def invDirStep (st : FileStorage) (fs : FS) (inv : Invoice) : Except StorageError FS :=
  let inv_path := st.invoice_path (st.canonical_invoice_name inv)
  if fs.isDir inv_path then Except.ok fs
  else if fs.isFile inv_path then Except.error StorageError.Exists
  else Except.mapError StorageError.ioErr (fs.createDirAll inv_path)

/-- The log lines produced by one index invocation: an error is logged and
swallowed (storage.rs lines 183-190 and 266-273). -/
def indexLog (invoice_id : String) (idx : IndexFn) (inv : Invoice) : List String :=
  match idx inv with
  | Except.ok _ => []
  | Except.error e => ["Error indexing " ++ invoice_id ++ ": " ++ e]

/-- The tail of `create_invoice` after the manifest write succeeded
(storage.rs lines 183-221): invoke the index (error swallowed), bail with an
empty list when there are no parcels, run the missing-parcel scan otherwise. -/
def afterManifest (st : FileStorage) (idx : IndexFn) (inv : Invoice) (fs2 : FS) : CreateOut :=
  let log := indexLog (st.canonical_invoice_name inv) idx inv
  match inv.parcels with
  | none => ⟨Except.ok [], fs2, [inv], log⟩
  | some ps => ⟨Except.ok (scanMissing st fs2 ps), fs2, [inv], log⟩

/-- `create_invoice` (storage.rs lines 151-221): reject a yanked invoice,
settle the invoice directory, exclusively create and write `invoice.toml`,
index (best effort), and report missing parcels. -/
def create_invoice (st : FileStorage) (idx : IndexFn) (fs : FS) (inv : Invoice) : CreateOut :=
  if inv.yanked.getD false then ⟨Except.error StorageError.CreateYanked, fs, [], []⟩
  else
    match invDirStep st fs inv with
    | Except.error e => ⟨Except.error e, fs, [], []⟩
    | Except.ok fs1 =>
      match fs1.createNew (invDest st inv) (FileData.invoiceToml inv) with
      | Except.error k => ⟨Except.error (StorageError.ioErr k), fs1, [], []⟩
      | Except.ok fs2 => afterManifest st idx inv fs2

/-- The load part of `get_yanked_invoice` (storage.rs lines 245-258): hash the
parsed name and version, read `invoice.toml` and deserialize it. -/
def loadInvoice (st : FileStorage) (fs : FS) (name version : String) : Except StorageError Invoice :=
  match fs.readFile (st.invoice_toml_path (st.canonical_invoice_name_strings name version)) with
  | Except.error k => Except.error (StorageError.ioErr k)
  | Except.ok (FileData.invoiceToml i) => Except.ok i
  | Except.ok _ => Except.error StorageError.Malformed

/-- `get_yanked_invoice` (storage.rs lines 229-259): parse the identifier with
`Path::parent` and `Path::file_name`, failing with `NotFound` when either is
absent, then load the manifest; the `yanked` flag is not inspected. -/
def get_yanked_invoice (st : FileStorage) (fs : FS) (id : String) : Except StorageError Invoice :=
  match pathParent id with
  | none => Except.error StorageError.NotFound
  | some name =>
    match pathFileName id with
    | none => Except.error StorageError.NotFound
    | some version => loadInvoice st fs name version

/-- `get_invoice` (storage.rs lines 222-228): delegate to
`get_yanked_invoice`; a yanked result becomes the `Yanked` error, other
errors propagate unchanged. -/
def get_invoice (st : FileStorage) (fs : FS) (id : String) : Except StorageError Invoice :=
  match get_yanked_invoice st fs id with
  | Except.ok inv =>
    if inv.yanked.getD false then Except.error StorageError.Yanked else Except.ok inv
  | Except.error e => Except.error e

/-- The outcome of `yank_invoice`: the caller's (mutated) invoice structure,
the returned value, the final filesystem, the indexed invoices, and the log. -/
structure YankOut where
  inv : Invoice
  res : Except StorageError Unit
  fs : FS
  indexed : List Invoice
  log : List String

/-- `yank_invoice` (storage.rs lines 260-288): set the caller's `yanked` field
to true, index the mutated structure (error swallowed), then force-overwrite
the manifest path computed from the structure's own (name, version) with
`std::fs::write`. -/
def yank_invoice (st : FileStorage) (idx : IndexFn) (fs : FS) (inv0 : Invoice) : YankOut :=
  let invoice_id := st.canonical_invoice_name inv0
  let inv := { inv0 with yanked := some true }
  let log := indexLog invoice_id idx inv
  match fs.writeFile (st.invoice_toml_path invoice_id) (FileData.invoiceToml inv) with
  | Except.ok fs1 => ⟨inv, Except.ok (), fs1, [inv], log⟩
  | Except.error k => ⟨inv, Except.error (StorageError.ioErr k), fs, [inv], log⟩

/-- The blob and label writes of `create_parcel` (storage.rs lines 303-329):
exclusively create `parcel.dat` with the streamed bytes, then exclusively
create `label.toml`; a failure surfaces as an I/O error. -/
def parcelFilesStep (st : FileStorage) (fs : FS) (label : Label) (data : List Nat) :
    Except StorageError Unit × FS :=
  match fs.createNew (st.parcel_data_path label.sha256) (FileData.blob data) with
  | Except.error k => (Except.error (StorageError.ioErr k), fs)
  | Except.ok fs2 =>
    match fs2.createNew (st.label_toml_path label.sha256) (FileData.labelToml label) with
    | Except.error k => (Except.error (StorageError.ioErr k), fs2)
    | Except.ok fs3 => (Except.ok (), fs3)

/-- `create_parcel` (storage.rs lines 289-330): fail with `Exists` when the
parcel directory path is a regular file, create the directory (idempotent),
then write the blob and the label. -/
def create_parcel (st : FileStorage) (fs : FS) (label : Label) (data : List Nat) :
    Except StorageError Unit × FS :=
  let par_path := st.parcel_path label.sha256
  if fs.isFile par_path then (Except.error StorageError.Exists, fs)
  else
    match fs.createDirAll par_path with
    | Except.error k => (Except.error (StorageError.ioErr k), fs)
    | Except.ok fs1 => parcelFilesStep st fs1 label data

/-- The spec's characterization of a parcel failing the existence check in the
missing-parcel scan: the check itself errors, or no entry exists at the path,
or the entry is not a directory. -/
def checkFailsB (fs : FS) (p : List String) : Bool :=
  decide (p ∈ fs.statErrs) ||
    (match fs.lookup p with
     | none => true
     | some e => !e.isDir)

/-! Helper lemmas about the filesystem model. -/

theorem ne_of_len_ne {α : Type} {l1 l2 : List α} (h : l1.length ≠ l2.length) : l1 ≠ l2 :=
  fun he => h (by rw [he])

theorem dropLast_app_single {α : Type} (l : List α) (a : α) : (l ++ [a]).dropLast = l := by
  simp

theorem FS.lookup_insert (fs : FS) (p : List String) (e : FsEntry) (q : List String) :
    (fs.insert p e).lookup q = if p = q then some e else fs.lookup q := by
  unfold FS.insert FS.lookup
  simp only [lookupEntries]

theorem FS.lookup_insert_self (fs : FS) (p : List String) (e : FsEntry) :
    (fs.insert p e).lookup p = some e := by
  rw [FS.lookup_insert]
  simp

theorem FS.lookup_insert_ne (fs : FS) (p : List String) (e : FsEntry) (q : List String)
    (h : p ≠ q) : (fs.insert p e).lookup q = fs.lookup q := by
  rw [FS.lookup_insert]
  simp [h]

theorem FS.statErrs_insert (fs : FS) (p : List String) (e : FsEntry) :
    (fs.insert p e).statErrs = fs.statErrs := rfl

theorem FS.isDir_eq_true_iff (fs : FS) (p : List String) :
    fs.isDir p = true ↔ p ∉ fs.statErrs ∧ fs.lookup p = some FsEntry.dir := by
  unfold FS.isDir FS.metadata
  by_cases hs : p ∈ fs.statErrs
  · simp [hs]
  · cases h : fs.lookup p with
    | none => simp [hs, h]
    | some e => cases e <;> simp [hs, h, FsEntry.isDir]

theorem FS.isFile_eq_true_iff (fs : FS) (p : List String) :
    fs.isFile p = true ↔ p ∉ fs.statErrs ∧ ∃ d, fs.lookup p = some (FsEntry.file d) := by
  unfold FS.isFile FS.metadata
  by_cases hs : p ∈ fs.statErrs
  · simp [hs]
  · cases h : fs.lookup p with
    | none => simp [hs, h]
    | some e => cases e <;> simp [hs, h]

theorem FS.ensureDir_ok (fs : FS) (p : List String) (fs1 : FS)
    (h : fs.ensureDir p = Except.ok fs1) :
    fs1.lookup p = some FsEntry.dir ∧ (∀ q, p ≠ q → fs1.lookup q = fs.lookup q) ∧
      fs1.statErrs = fs.statErrs := by
  unfold FS.ensureDir at h
  cases hl : fs.lookup p with
  | none =>
    simp only [hl] at h
    injection h with h1
    subst h1
    exact ⟨FS.lookup_insert_self fs p FsEntry.dir,
      fun q hq => FS.lookup_insert_ne fs p FsEntry.dir q hq, rfl⟩
  | some e =>
    cases e with
    | dir =>
      simp only [hl] at h
      injection h with h1
      subst h1
      exact ⟨hl, fun q _ => rfl, rfl⟩
    | file d =>
      simp only [hl] at h
      exact Except.noConfusion h

theorem FS.createDirAllAux_ok (p : List String) (n : Nat) (fs fs' : FS)
    (h : FS.createDirAllAux p n fs = Except.ok fs') :
    (∀ k, k < n → fs'.lookup (p.take (k + 1)) = some FsEntry.dir) ∧
      fs'.statErrs = fs.statErrs := by
  induction n generalizing fs' with
  | zero =>
    unfold FS.createDirAllAux at h
    injection h with h1
    subst h1
    exact ⟨fun k hk => absurd hk (Nat.not_lt_zero k), rfl⟩
  | succ n ih =>
    unfold FS.createDirAllAux at h
    cases hm : FS.createDirAllAux p n fs with
    | error e =>
      simp only [hm] at h
      exact Except.noConfusion h
    | ok fsm =>
      simp only [hm] at h
      obtain ⟨ihd, ihs⟩ := ih fsm hm
      obtain ⟨hd1, hpre, hs1⟩ := FS.ensureDir_ok fsm (p.take (n + 1)) fs' h
      refine ⟨fun k hk => ?_, by rw [hs1, ihs]⟩
      rcases Nat.lt_succ_iff_lt_or_eq.mp hk with hk' | hk'
      · by_cases he : p.take (n + 1) = p.take (k + 1)
        · rw [← he]; exact hd1
        · rw [hpre _ he]; exact ihd k hk'
      · subst hk'; exact hd1

theorem FS.createDirAllAux_noop (p : List String) (n : Nat) (fs : FS)
    (h : ∀ k, k < n → fs.lookup (p.take (k + 1)) = some FsEntry.dir) :
    FS.createDirAllAux p n fs = Except.ok fs := by
  induction n with
  | zero => rfl
  | succ n ih =>
    unfold FS.createDirAllAux
    rw [ih (fun k hk => h k (Nat.lt_succ_of_lt hk))]
    show fs.ensureDir (p.take (n + 1)) = Except.ok fs
    unfold FS.ensureDir
    rw [h n (Nat.lt_succ_self n)]

theorem FS.createDirAll_ok (fs : FS) (p : List String) (fs' : FS)
    (h : fs.createDirAll p = Except.ok fs') :
    (∀ k, k < p.length → fs'.lookup (p.take (k + 1)) = some FsEntry.dir) ∧
      fs'.statErrs = fs.statErrs :=
  FS.createDirAllAux_ok p p.length fs fs' h

theorem FS.createDirAll_noop (fs : FS) (p : List String)
    (h : ∀ k, k < p.length → fs.lookup (p.take (k + 1)) = some FsEntry.dir) :
    fs.createDirAll p = Except.ok fs :=
  FS.createDirAllAux_noop p p.length fs h

theorem FS.createNew_ok (fs : FS) (p : List String) (d : FileData) (fs' : FS)
    (h : fs.createNew p d = Except.ok fs') :
    fs.lookup p = none ∧ fs.lookup p.dropLast = some FsEntry.dir ∧
      fs' = fs.insert p (FsEntry.file d) := by
  unfold FS.createNew at h
  cases hl : fs.lookup p with
  | some e =>
    simp only [hl] at h
    exact Except.noConfusion h
  | none =>
    simp only [hl] at h
    cases hp : fs.lookup p.dropLast with
    | none =>
      simp only [hp] at h
      exact Except.noConfusion h
    | some e =>
      cases e with
      | file d2 =>
        simp only [hp] at h
        exact Except.noConfusion h
      | dir =>
        simp only [hp] at h
        injection h with h1
        exact ⟨rfl, rfl, h1.symm⟩

theorem FS.createNew_exists (fs : FS) (p : List String) (d : FileData) (e : FsEntry)
    (h : fs.lookup p = some e) :
    fs.createNew p d = Except.error IOErrorKind.alreadyExists := by
  unfold FS.createNew
  rw [h]

/-! Lemmas about the storage operations. -/

/-- The per-parcel decision of the missing scan agrees with the spec's
three-case existence-check characterization. -/
theorem missingDecision (fs : FS) (p : List String) (l : Label) :
    (match fs.metadata p with
     | Except.ok e => if e.isDir then none else some l
     | Except.error _ => some l) =
    (if checkFailsB fs p then some l else none) := by
  unfold FS.metadata checkFailsB
  by_cases hs : p ∈ fs.statErrs
  · simp [hs]
  · cases h : fs.lookup p with
    | none => simp [hs, h]
    | some e => cases e <;> simp [hs, h, FsEntry.isDir]

theorem scanMissing_eq_filter (st : FileStorage) (fs : FS) (ps : List Parcel) :
    scanMissing st fs ps =
      (ps.filter (fun k => checkFailsB fs (st.parcel_path k.label.sha256))).map
        (fun k => k.label) := by
  induction ps with
  | nil => rfl
  | cons k ks ih =>
    unfold scanMissing at ih ⊢
    rw [List.filterMap_cons, List.filter_cons]
    rw [missingDecision fs (st.parcel_path k.label.sha256) k.label]
    by_cases hb : checkFailsB fs (st.parcel_path k.label.sha256)
    · simp only [hb, if_true, List.map_cons, ih]
    · simp only [hb, if_false, ih]
      simp [hb]

theorem afterManifest_fs (st : FileStorage) (idx : IndexFn) (inv : Invoice) (fs2 : FS) :
    (afterManifest st idx inv fs2).fs = fs2 := by
  unfold afterManifest
  cases inv.parcels <;> rfl

theorem afterManifest_indexed (st : FileStorage) (idx : IndexFn) (inv : Invoice) (fs2 : FS) :
    (afterManifest st idx inv fs2).indexed = [inv] := by
  unfold afterManifest
  cases inv.parcels <;> rfl

theorem afterManifest_res_some (st : FileStorage) (idx : IndexFn) (inv : Invoice) (fs2 : FS)
    (ps : List Parcel) (hps : inv.parcels = some ps) :
    (afterManifest st idx inv fs2).res = Except.ok (scanMissing st fs2 ps) := by
  unfold afterManifest
  rw [hps]

/-- Inversion of a successful `create_invoice`: the invoice was not yanked,
the directory step and the exclusive manifest write both succeeded, the final
state is the written one, and the whole call equals its post-write tail. -/
theorem create_res_ok_shape (st : FileStorage) (idx : IndexFn) (fs : FS) (inv : Invoice)
    (ls : List Label) (h : (create_invoice st idx fs inv).res = Except.ok ls) :
    inv.yanked.getD false = false ∧
    (∃ fs1, invDirStep st fs inv = Except.ok fs1 ∧
      fs1.createNew (invDest st inv) (FileData.invoiceToml inv) =
        Except.ok (create_invoice st idx fs inv).fs) ∧
    create_invoice st idx fs inv = afterManifest st idx inv (create_invoice st idx fs inv).fs := by
  cases hy : inv.yanked.getD false with
  | true => simp [create_invoice, hy] at h
  | false =>
    cases hd : invDirStep st fs inv with
    | error e => simp [create_invoice, hy, hd] at h
    | ok fs1 =>
      cases hw : fs1.createNew (invDest st inv) (FileData.invoiceToml inv) with
      | error k => simp [create_invoice, hy, hd, hw] at h
      | ok fs2 =>
        have hc : create_invoice st idx fs inv = afterManifest st idx inv fs2 := by
          simp [create_invoice, hy, hd, hw]
        have hfs : (create_invoice st idx fs inv).fs = fs2 := by
          rw [hc, afterManifest_fs]
        refine ⟨rfl, ⟨fs1, rfl, ?_⟩, ?_⟩
        · rw [hfs]; exact hw
        · rw [hc, afterManifest_fs]

/-- Inversion of a successful invoice-directory step: spurious-stat paths are
unchanged, the invoice directory is present in the result, and either the
step was a no-op on an already-existing directory with a working stat, or the
whole directory chain was ensured. -/
theorem invDirStep_ok (st : FileStorage) (fs : FS) (inv : Invoice) (fs1 : FS)
    (h : invDirStep st fs inv = Except.ok fs1) :
    fs1.statErrs = fs.statErrs ∧
    fs1.lookup (st.invoice_path (st.canonical_invoice_name inv)) = some FsEntry.dir ∧
    ((fs1 = fs ∧ st.invoice_path (st.canonical_invoice_name inv) ∉ fs.statErrs) ∨
      (∀ k, k < (st.invoice_path (st.canonical_invoice_name inv)).length →
        fs1.lookup ((st.invoice_path (st.canonical_invoice_name inv)).take (k + 1)) =
          some FsEntry.dir)) := by
  unfold invDirStep at h
  cases hdir : fs.isDir (st.invoice_path (st.canonical_invoice_name inv)) with
  | true =>
    simp only [hdir, if_true] at h
    injection h with h1
    subst h1
    obtain ⟨hs, hl⟩ := (FS.isDir_eq_true_iff fs _).mp hdir
    exact ⟨rfl, hl, Or.inl ⟨rfl, hs⟩⟩
  | false =>
    simp only [hdir, Bool.false_eq_true, if_false] at h
    cases hfile : fs.isFile (st.invoice_path (st.canonical_invoice_name inv)) with
    | true =>
      simp only [hfile, if_true] at h
      exact Except.noConfusion h
    | false =>
      simp only [hfile, Bool.false_eq_true, if_false] at h
      cases hcd : fs.createDirAll (st.invoice_path (st.canonical_invoice_name inv)) with
      | error e =>
        rw [hcd] at h
        exact Except.noConfusion h
      | ok fsd =>
        rw [hcd] at h
        injection h with h1
        subst h1
        obtain ⟨hdirs, hs⟩ := FS.createDirAll_ok fs _ fsd hcd
        have hlen : 0 < (st.invoice_path (st.canonical_invoice_name inv)).length := by
          unfold FileStorage.invoice_path
          simp
        have hfull := hdirs ((st.invoice_path (st.canonical_invoice_name inv)).length - 1)
          (Nat.sub_lt hlen Nat.one_pos)
        rw [Nat.sub_add_cancel (Nat.succ_le_of_lt hlen), List.take_length] at hfull
        exact ⟨hs, hfull, Or.inr hdirs⟩

/-! Lemmas about identifier parsing and manifest reads. -/

theorem splitSegsAux_no_sep (cs : List Char) (acc : List Char)
    (h : ∀ c ∈ cs, c ≠ '/') : splitSegsAux cs acc = [String.mk (acc.reverse ++ cs)] := by
  induction cs generalizing acc with
  | nil => simp [splitSegsAux]
  | cons c cs ih =>
    unfold splitSegsAux
    rw [if_neg (h c (List.mem_cons_self c cs))]
    rw [ih (c :: acc) (fun x hx => h x (List.mem_cons_of_mem c hx))]
    congr 1
    simp

theorem rawSegs_no_sep (s : String) (h : decide ('/' ∈ s.toList) = false) :
    rawSegs s = [s] := by
  unfold rawSegs
  rw [splitSegsAux_no_sep s.toList []
    (fun c hc he => of_decide_eq_false h (he ▸ hc))]
  rfl

theorem hasRoot_no_sep (s : String) (h : decide ('/' ∈ s.toList) = false) :
    hasRoot s = false := by
  unfold hasRoot
  cases hl : s.toList with
  | nil => rfl
  | cons c cs =>
    have hc : ¬(c = '/') := fun he =>
      of_decide_eq_false h (by rw [hl, he]; exact List.mem_cons_self _ _)
    simp [hc]

theorem pathParent_no_sep (s : String) (h : decide ('/' ∈ s.toList) = false)
    (h1 : s ≠ "") (h2 : s ≠ ".") : pathParent s = some "" := by
  unfold pathParent
  rw [rawSegs_no_sep s h]
  have hreal : isRealSeg s = true := by
    unfold isRealSeg
    rw [decide_eq_true h1, decide_eq_true h2]
    rfl
  simp only [splitLastReal, hreal, if_true]
  rw [hasRoot_no_sep s h]
  rfl

theorem pathFileName_no_sep (s : String) (h : decide ('/' ∈ s.toList) = false)
    (h1 : s ≠ "") (h2 : s ≠ ".") (h3 : s ≠ "..") : pathFileName s = some s := by
  unfold pathFileName
  rw [rawSegs_no_sep s h]
  have hreal : isRealSeg s = true := by
    unfold isRealSeg
    rw [decide_eq_true h1, decide_eq_true h2]
    rfl
  simp only [splitLastReal, hreal, if_true]
  rw [if_neg h3]

/-- Reading back an invoice whose manifest file is present at the canonical
destination of `inv`, through the identifier string, when the identifier
parses back to exactly `inv`'s name and version. -/
theorem gyi_of_manifest (st : FileStorage) (fs : FS) (inv stored : Invoice)
    (hpar : pathParent (invoice_to_name inv) = some inv.bindle.name)
    (hfn : pathFileName (invoice_to_name inv) = some inv.bindle.version)
    (hlk : fs.lookup (invDest st inv) = some (FsEntry.file (FileData.invoiceToml stored))) :
    get_yanked_invoice st fs (invoice_to_name inv) = Except.ok stored := by
  unfold get_yanked_invoice
  simp only [hpar, hfn]
  unfold loadInvoice FS.readFile
  rw [show st.invoice_toml_path
      (st.canonical_invoice_name_strings inv.bindle.name inv.bindle.version) =
      invDest st inv from rfl, hlk]

/-- `yank_invoice` unfolded to a single case split on the manifest write. -/
theorem yank_invoice_eq (st : FileStorage) (idx : IndexFn) (fs : FS) (inv0 : Invoice) :
    yank_invoice st idx fs inv0 =
      match fs.writeFile (invDest st inv0)
          (FileData.invoiceToml { inv0 with yanked := some true }) with
      | Except.ok fs1 => ⟨{ inv0 with yanked := some true }, Except.ok (), fs1,
          [{ inv0 with yanked := some true }],
          indexLog (st.canonical_invoice_name inv0) idx { inv0 with yanked := some true }⟩
      | Except.error k => ⟨{ inv0 with yanked := some true },
          Except.error (StorageError.ioErr k), fs,
          [{ inv0 with yanked := some true }],
          indexLog (st.canonical_invoice_name inv0) idx { inv0 with yanked := some true }⟩ := rfl

theorem FS.writeFile_overwrite (fs : FS) (p : List String) (d d0 : FileData)
    (h : fs.lookup p = some (FsEntry.file d0)) :
    fs.writeFile p d = Except.ok (fs.insert p (FsEntry.file d)) := by
  unfold FS.writeFile
  rw [h]

theorem FS.writeFile_create (fs : FS) (p : List String) (d : FileData)
    (h1 : fs.lookup p = none) (h2 : fs.lookup p.dropLast = some FsEntry.dir) :
    fs.writeFile p d = Except.ok (fs.insert p (FsEntry.file d)) := by
  unfold FS.writeFile
  rw [h1, h2]

theorem FS.writeFile_noParent (fs : FS) (p : List String) (d : FileData)
    (h1 : fs.lookup p = none) (h2 : fs.lookup p.dropLast ≠ some FsEntry.dir) :
    fs.writeFile p d = Except.error IOErrorKind.notFound := by
  unfold FS.writeFile
  rw [h1]
  cases hp : fs.lookup p.dropLast with
  | none => rfl
  | some e =>
    cases e with
    | dir => exact absurd hp h2
    | file d2 => rfl

/-! Concrete fixtures used by witnesses and counterexamples.  The digest
function is instantiated with a stand-in (the identity) since no claim
depends on the value of the hash, only on its determinism. -/

def stX : FileStorage := ⟨["r"], fun s => s⟩

def idxOk : IndexFn := fun _ => Except.ok ()

def idxBad : IndexFn := fun _ => Except.error "index down"

def fs0 : FS := ⟨[], []⟩

def invNV : Invoice := ⟨"1.0.0", ⟨"n", "v", none, none⟩, none, none, none, none⟩

def invYk : Invoice := ⟨"1.0.0", ⟨"n", "v", none, none⟩, some true, none, none, none⟩

def lblA : Label := ⟨"sa", "text/toml", "a", some 6, none⟩

def lblB : Label := ⟨"sb", "text/toml", "b", none, none⟩

def lblC : Label := ⟨"sc", "text/toml", "c", none, none⟩

def lblD : Label := ⟨"sd", "text/toml", "d", none, none⟩

def psW : List Parcel := [⟨lblA, none⟩, ⟨lblB, none⟩, ⟨lblC, none⟩, ⟨lblD, none⟩]

def invW : Invoice := ⟨"1.0.0", ⟨"w", "1", none, none⟩, none, none, some psW, none⟩

/-- Store for the C1 witness: parcel `sa` present as a directory, `sb`
absent, `sc` present but with a spuriously failing stat, `sd` present as a
regular file. -/
def fsW : FS :=
  ⟨[(["r", "parcels", "sa"], FsEntry.dir), (["r", "parcels", "sd"], FsEntry.file FileData.junk)],
    [["r", "parcels", "sc"]]⟩

/-! The claims. -/

/-- C1: for an invoice with a present, non-empty parcels list, a successful
`create_invoice` returns exactly the labels of the referenced parcels whose
parcel path fails the existence check (stat error, no entry, or a non-directory
entry) and no others; the code keeps input order, which is one of the orders
the claim permits, and a stat error only marks that parcel missing instead of
failing the call. -/
theorem C1_create_missing_exact (st : FileStorage) (idx : IndexFn) (fs : FS) (inv : Invoice)
    (ps : List Parcel) (ls : List Label)
    (hps : inv.parcels = some ps) (hne : ps ≠ [])
    (hok : (create_invoice st idx fs inv).res = Except.ok ls) :
    ls = (ps.filter (fun k =>
        checkFailsB (create_invoice st idx fs inv).fs (st.parcel_path k.label.sha256))).map
      (fun k => k.label) := by
  obtain ⟨-, -, hc⟩ := create_res_ok_shape st idx fs inv ls hok
  rw [hc] at hok
  rw [afterManifest_res_some st idx inv _ ps hps] at hok
  injection hok with h1
  rw [← h1, scanMissing_eq_filter]

/-- Witness for C1: on `fsW` the call succeeds and reports exactly the labels
of the absent parcel, the stat-error parcel, and the file-occupied parcel. -/
theorem C1_create_missing_exact_witness :
    invW.parcels = some psW ∧ psW ≠ [] ∧
    (create_invoice stX idxOk fsW invW).res = Except.ok [lblB, lblC, lblD] ∧
    [lblB, lblC, lblD] = (psW.filter (fun k =>
        checkFailsB (create_invoice stX idxOk fsW invW).fs (stX.parcel_path k.label.sha256))).map
      (fun k => k.label) :=
  ⟨rfl, by decide, rfl,
    C1_create_missing_exact stX idxOk fsW invW psW [lblB, lblC, lblD] rfl (by decide) rfl⟩

/-- C4: creating an invoice whose yanked field is true fails with
`CreateYanked`, leaves the filesystem untouched, and never invokes the index
capability. -/
theorem C4_create_yanked_rejected (st : FileStorage) (idx : IndexFn) (fs : FS) (inv : Invoice)
    (h : inv.yanked = some true) :
    create_invoice st idx fs inv = ⟨Except.error StorageError.CreateYanked, fs, [], []⟩ := by
  unfold create_invoice
  rw [h]
  rfl

/-- Witness for C4 on a concrete pre-yanked invoice. -/
theorem C4_create_yanked_rejected_witness :
    invYk.yanked = some true ∧
    create_invoice stX idxOk fs0 invYk = ⟨Except.error StorageError.CreateYanked, fs0, [], []⟩ :=
  ⟨rfl, C4_create_yanked_rejected stX idxOk fs0 invYk rfl⟩

/-- C9: the result value, the final filesystem state, and the set of indexed
invoices of `create_invoice` and `yank_invoice` are identical under any index
behavior and under the always-succeeding index: index errors are swallowed
(only the log differs) and the written manifest is not rolled back. -/
theorem C9_index_errors_swallowed (st : FileStorage) (fs : FS) (inv : Invoice) (idx : IndexFn) :
    ((create_invoice st idx fs inv).res = (create_invoice st (fun _ => Except.ok ()) fs inv).res ∧
     (create_invoice st idx fs inv).fs = (create_invoice st (fun _ => Except.ok ()) fs inv).fs ∧
     (create_invoice st idx fs inv).indexed =
       (create_invoice st (fun _ => Except.ok ()) fs inv).indexed) ∧
    ((yank_invoice st idx fs inv).inv = (yank_invoice st (fun _ => Except.ok ()) fs inv).inv ∧
     (yank_invoice st idx fs inv).res = (yank_invoice st (fun _ => Except.ok ()) fs inv).res ∧
     (yank_invoice st idx fs inv).fs = (yank_invoice st (fun _ => Except.ok ()) fs inv).fs ∧
     (yank_invoice st idx fs inv).indexed =
       (yank_invoice st (fun _ => Except.ok ()) fs inv).indexed) := by
  constructor
  · cases hy : inv.yanked.getD false with
    | true => simp [create_invoice, hy]
    | false =>
      cases hd : invDirStep st fs inv with
      | error e => simp [create_invoice, hy, hd]
      | ok fs1 =>
        cases hw : fs1.createNew (invDest st inv) (FileData.invoiceToml inv) with
        | error k => simp [create_invoice, hy, hd, hw]
        | ok fs2 =>
          simp only [create_invoice, hy, hd, hw, Bool.false_eq_true, if_false]
          unfold afterManifest
          cases inv.parcels <;> simp
  · unfold yank_invoice
    cases hw : fs.writeFile (st.invoice_toml_path (st.canonical_invoice_name inv))
        (FileData.invoiceToml { inv with yanked := some true }) <;> simp [hw]

/-- C10: `yank_invoice` mutates the caller's structure to `yanked = some true`
before the write, so the mutation survives any error outcome. -/
theorem C10_yank_mutates_before_write (st : FileStorage) (idx : IndexFn) (fs : FS)
    (inv0 : Invoice) :
    (yank_invoice st idx fs inv0).inv = { inv0 with yanked := some true } ∧
    (∀ e, (yank_invoice st idx fs inv0).res = Except.error e →
      (yank_invoice st idx fs inv0).inv.yanked = some true) := by
  have h1 : (yank_invoice st idx fs inv0).inv = { inv0 with yanked := some true } := by
    unfold yank_invoice
    cases hw : fs.writeFile (st.invoice_toml_path (st.canonical_invoice_name inv0))
        (FileData.invoiceToml { inv0 with yanked := some true }) <;> simp [hw]
  exact ⟨h1, fun e _ => by rw [h1]⟩

/-- Witness for C10: yanking a never-created invoice on the empty store fails
with an I/O error, yet the caller's structure carries `yanked = some true`. -/
theorem C10_yank_mutates_before_write_witness :
    (yank_invoice stX idxOk fs0 invNV).res = Except.error (StorageError.ioErr IOErrorKind.notFound) ∧
    (yank_invoice stX idxOk fs0 invNV).inv.yanked = some true :=
  ⟨rfl, (C10_yank_mutates_before_write stX idxOk fs0 invNV).2
    (StorageError.ioErr IOErrorKind.notFound) rfl⟩

/-- C7: after a successful creation, creating an invoice with the same
(name, version) again — any non-pre-yanked invoice with that identity — fails
with the exclusive-create `AlreadyExists` I/O error and leaves the filesystem,
hence the first manifest's content, unchanged. -/
theorem C7_duplicate_create_rejected (st : FileStorage) (idx idx2 : IndexFn) (fs : FS)
    (inv inv2 : Invoice) (ls : List Label)
    (hok : (create_invoice st idx fs inv).res = Except.ok ls)
    (hn : inv2.bindle.name = inv.bindle.name) (hv : inv2.bindle.version = inv.bindle.version)
    (hy2 : inv2.yanked.getD false = false) :
    create_invoice st idx2 (create_invoice st idx fs inv).fs inv2 =
      ⟨Except.error (StorageError.ioErr IOErrorKind.alreadyExists),
        (create_invoice st idx fs inv).fs, [], []⟩ := by
  obtain ⟨hy, ⟨fs1, hd, hw⟩, -⟩ := create_res_ok_shape st idx fs inv ls hok
  obtain ⟨hnolk, hpdir, hins⟩ :=
    FS.createNew_ok fs1 (invDest st inv) (FileData.invoiceToml inv)
      (create_invoice st idx fs inv).fs hw
  obtain ⟨hse, hlkdir, hbranch⟩ := invDirStep_ok st fs inv fs1 hd
  have hcid : st.canonical_invoice_name inv2 = st.canonical_invoice_name inv := by
    unfold FileStorage.canonical_invoice_name FileStorage.canonical_invoice_name_strings
    rw [hn, hv]
  have hDP : (invDest st inv).dropLast = st.invoice_path (st.canonical_invoice_name inv) := by
    unfold invDest FileStorage.invoice_toml_path
    exact dropLast_app_single _ _
  have hlenD : (invDest st inv).length =
      (st.invoice_path (st.canonical_invoice_name inv)).length + 1 := by
    unfold invDest FileStorage.invoice_toml_path
    simp
  have hDneP : invDest st inv ≠ st.invoice_path (st.canonical_invoice_name inv) :=
    ne_of_len_ne (by rw [hlenD]; exact Nat.succ_ne_self _)
  have hFS2D : (create_invoice st idx fs inv).fs.lookup (invDest st inv) =
      some (FsEntry.file (FileData.invoiceToml inv)) := by
    rw [hins]
    exact FS.lookup_insert_self fs1 (invDest st inv) (FsEntry.file (FileData.invoiceToml inv))
  have hFS2P : (create_invoice st idx fs inv).fs.lookup
      (st.invoice_path (st.canonical_invoice_name inv)) = some FsEntry.dir := by
    rw [hins, FS.lookup_insert_ne _ _ _ _ hDneP]
    exact hlkdir
  have hFS2se : (create_invoice st idx fs inv).fs.statErrs = fs.statErrs := by
    rw [hins, FS.statErrs_insert]
    exact hse
  have hstep : invDirStep st (create_invoice st idx fs inv).fs inv2 =
      Except.ok (create_invoice st idx fs inv).fs := by
    unfold invDirStep
    rw [hcid]
    cases h2 : (create_invoice st idx fs inv).fs.isDir
        (st.invoice_path (st.canonical_invoice_name inv)) with
    | true => simp [h2]
    | false =>
      have hmem : st.invoice_path (st.canonical_invoice_name inv) ∈
          (create_invoice st idx fs inv).fs.statErrs := by
        by_contra hmem
        have hcontra : (create_invoice st idx fs inv).fs.isDir
            (st.invoice_path (st.canonical_invoice_name inv)) = true :=
          (FS.isDir_eq_true_iff _ _).mpr ⟨hmem, hFS2P⟩
        rw [h2] at hcontra
        exact Bool.noConfusion hcontra
      have hfile : (create_invoice st idx fs inv).fs.isFile
          (st.invoice_path (st.canonical_invoice_name inv)) = false := by
        cases hh : (create_invoice st idx fs inv).fs.isFile
            (st.invoice_path (st.canonical_invoice_name inv)) with
        | false => rfl
        | true =>
          obtain ⟨hnm, -⟩ := (FS.isFile_eq_true_iff _ _).mp hh
          exact absurd hmem hnm
      rcases hbranch with ⟨hfs1eq, hnmem⟩ | hdirs
      · rw [hFS2se] at hmem
        exact absurd hmem hnmem
      · have hdirs2 : ∀ k, k < (st.invoice_path (st.canonical_invoice_name inv)).length →
            (create_invoice st idx fs inv).fs.lookup
              ((st.invoice_path (st.canonical_invoice_name inv)).take (k + 1)) =
              some FsEntry.dir := by
          intro k hk
          rw [hins, FS.lookup_insert_ne]
          · exact hdirs k hk
          · apply ne_of_len_ne
            rw [hlenD, List.length_take]
            omega
        simp [h2, hfile,
          FS.createDirAll_noop (create_invoice st idx fs inv).fs
            (st.invoice_path (st.canonical_invoice_name inv)) hdirs2,
          Except.mapError]
  have hD2 : invDest st inv2 = invDest st inv := by
    unfold invDest
    rw [hcid]
  generalize hG : (create_invoice st idx fs inv).fs = G
  rw [hG] at hstep hFS2D
  unfold create_invoice
  simp only [hy2, Bool.false_eq_true, if_false, hstep, hD2,
    FS.createNew_exists G (invDest st inv)
      (FileData.invoiceToml inv2) (FsEntry.file (FileData.invoiceToml inv)) hFS2D]

/-- Witness for C7: creating the same invoice twice on the empty store. -/
theorem C7_duplicate_create_rejected_witness :
    (create_invoice stX idxOk fs0 invNV).res = Except.ok [] ∧
    create_invoice stX idxBad (create_invoice stX idxOk fs0 invNV).fs invNV =
      ⟨Except.error (StorageError.ioErr IOErrorKind.alreadyExists),
        (create_invoice stX idxOk fs0 invNV).fs, [], []⟩ :=
  ⟨rfl, C7_duplicate_create_rejected stX idxOk idxBad fs0 invNV invNV [] rfl rfl rfl rfl⟩

/-- C8: `create_parcel` fails with `Exists` when the parcel directory path is
occupied by a regular file (under a working stat); when the directory chain
already exists the directory step is an idempotent no-op and the call proceeds
to the file writes; and when `parcel.dat` already exists the call fails with
the `AlreadyExists` I/O error — not `Exists` — leaving the store, hence the
existing blob, unchanged. -/
theorem C8_create_parcel_guards :
    (∀ (st : FileStorage) (fs : FS) (label : Label) (data : List Nat) (d : FileData),
      fs.lookup (st.parcel_path label.sha256) = some (FsEntry.file d) →
      st.parcel_path label.sha256 ∉ fs.statErrs →
      create_parcel st fs label data = (Except.error StorageError.Exists, fs)) ∧
    (∀ (st : FileStorage) (fs : FS) (label : Label) (data : List Nat),
      (∀ k, k < (st.parcel_path label.sha256).length →
        fs.lookup ((st.parcel_path label.sha256).take (k + 1)) = some FsEntry.dir) →
      create_parcel st fs label data = parcelFilesStep st fs label data) ∧
    (∀ (st : FileStorage) (fs : FS) (label : Label) (data : List Nat) (e : FsEntry),
      (∀ k, k < (st.parcel_path label.sha256).length →
        fs.lookup ((st.parcel_path label.sha256).take (k + 1)) = some FsEntry.dir) →
      fs.lookup (st.parcel_data_path label.sha256) = some e →
      create_parcel st fs label data =
        (Except.error (StorageError.ioErr IOErrorKind.alreadyExists), fs)) := by
  have hstep : ∀ (st : FileStorage) (fs : FS) (label : Label) (data : List Nat),
      (∀ k, k < (st.parcel_path label.sha256).length →
        fs.lookup ((st.parcel_path label.sha256).take (k + 1)) = some FsEntry.dir) →
      create_parcel st fs label data = parcelFilesStep st fs label data := by
    intro st fs label data hdirs
    have hlen : 0 < (st.parcel_path label.sha256).length := by
      unfold FileStorage.parcel_path
      simp
    have hpar : fs.lookup (st.parcel_path label.sha256) = some FsEntry.dir := by
      have h := hdirs ((st.parcel_path label.sha256).length - 1) (Nat.sub_lt hlen Nat.one_pos)
      rw [Nat.sub_add_cancel (Nat.succ_le_of_lt hlen), List.take_length] at h
      exact h
    have hfile : fs.isFile (st.parcel_path label.sha256) = false := by
      cases hh : fs.isFile (st.parcel_path label.sha256) with
      | false => rfl
      | true =>
        obtain ⟨-, d, hld⟩ := (FS.isFile_eq_true_iff _ _).mp hh
        rw [hpar] at hld
        injection hld with hld2
        exact FsEntry.noConfusion hld2
    unfold create_parcel
    simp [hfile, FS.createDirAll_noop fs (st.parcel_path label.sha256) hdirs]
  refine ⟨?_, hstep, ?_⟩
  · intro st fs label data d hl hnm
    have hfile : fs.isFile (st.parcel_path label.sha256) = true :=
      (FS.isFile_eq_true_iff _ _).mpr ⟨hnm, d, hl⟩
    unfold create_parcel
    simp [hfile]
  · intro st fs label data e hdirs hblob
    rw [hstep st fs label data hdirs]
    unfold parcelFilesStep
    simp only [FS.createNew_exists fs (st.parcel_data_path label.sha256)
      (FileData.blob data) e hblob]

/-- Store for the C8 witness, part one: the parcel-directory path of `sa` is
occupied by a regular file. -/
def fsP : FS :=
  ⟨[(["r"], FsEntry.dir), (["r", "parcels"], FsEntry.dir),
    (["r", "parcels", "sa"], FsEntry.file FileData.junk)], []⟩

/-- Store for the C8 witness, part two: the parcel directory of `sb` already
exists as a directory. -/
def fsQ : FS :=
  ⟨[(["r"], FsEntry.dir), (["r", "parcels"], FsEntry.dir),
    (["r", "parcels", "sb"], FsEntry.dir)], []⟩

/-- Store for the C8 witness, part three: the blob file of `sb` already
exists. -/
def fsR : FS :=
  ⟨[(["r"], FsEntry.dir), (["r", "parcels"], FsEntry.dir),
    (["r", "parcels", "sb"], FsEntry.dir),
    (["r", "parcels", "sb", "parcel.dat"], FsEntry.file (FileData.blob [9]))], []⟩

/-- Witness for C8: the three guards at concrete stores. -/
theorem C8_create_parcel_guards_witness :
    create_parcel stX fsP lblA [1, 2] = (Except.error StorageError.Exists, fsP) ∧
    create_parcel stX fsQ lblB [1, 2] = parcelFilesStep stX fsQ lblB [1, 2] ∧
    create_parcel stX fsR lblB [1, 2] =
      (Except.error (StorageError.ioErr IOErrorKind.alreadyExists), fsR) :=
  ⟨C8_create_parcel_guards.1 stX fsP lblA [1, 2] FileData.junk rfl (by decide),
   C8_create_parcel_guards.2.1 stX fsQ lblB [1, 2] (by decide),
   C8_create_parcel_guards.2.2 stX fsR lblB [1, 2]
     (FsEntry.file (FileData.blob [9])) (by decide) rfl⟩

/-- Invoice whose version is "..": its identifier string does not parse back,
so reads after creation fail instead of round-tripping. -/
def invDD : Invoice := ⟨"1.0.0", ⟨"a", "..", none, none⟩, none, none, none, none⟩

/-- C2 counterexample: for the invoice with name "a" and version "..",
creation succeeds but reading the identifier "a/.." fails with `NotFound`
(the final path segment ".." has no file name), so the claimed universal
create/read round trip is false as stated. -/
theorem C2_roundtrip_counterexample :
    invoice_to_name invDD = "a/.." ∧
    (create_invoice stX idxOk fs0 invDD).res = Except.ok [] ∧
    get_invoice stX (create_invoice stX idxOk fs0 invDD).fs (invoice_to_name invDD) =
      Except.error StorageError.NotFound ∧
    get_yanked_invoice stX (create_invoice stX idxOk fs0 invDD).fs (invoice_to_name invDD) =
      Except.error StorageError.NotFound :=
  ⟨rfl, rfl, rfl, rfl⟩

/-- C2 (amended): for every non-yanked invoice whose identifier string
parses back to exactly its (name, version), a successful `create_invoice`
followed by `get_invoice` (or `get_yanked_invoice`) on that identifier
returns a structurally equal invoice — every field, including absent
optionals, round-trips. -/
theorem C2_roundtrip_amended (st : FileStorage) (idx : IndexFn) (fs : FS) (inv : Invoice)
    (ls : List Label)
    (hpar : pathParent (invoice_to_name inv) = some inv.bindle.name)
    (hfn : pathFileName (invoice_to_name inv) = some inv.bindle.version)
    (hok : (create_invoice st idx fs inv).res = Except.ok ls) :
    get_invoice st (create_invoice st idx fs inv).fs (invoice_to_name inv) = Except.ok inv ∧
    get_yanked_invoice st (create_invoice st idx fs inv).fs (invoice_to_name inv) =
      Except.ok inv := by
  obtain ⟨hy, ⟨fs1, hd, hw⟩, -⟩ := create_res_ok_shape st idx fs inv ls hok
  obtain ⟨-, -, hins⟩ := FS.createNew_ok fs1 (invDest st inv) (FileData.invoiceToml inv)
    (create_invoice st idx fs inv).fs hw
  have hlk : (create_invoice st idx fs inv).fs.lookup (invDest st inv) =
      some (FsEntry.file (FileData.invoiceToml inv)) := by
    rw [hins]
    exact FS.lookup_insert_self fs1 (invDest st inv) (FsEntry.file (FileData.invoiceToml inv))
  have hgy := gyi_of_manifest st (create_invoice st idx fs inv).fs inv inv hpar hfn hlk
  refine ⟨?_, hgy⟩
  unfold get_invoice
  simp only [hgy, hy, Bool.false_eq_true, if_false]

/-- Witness for C2 (amended) on a well-formed identifier. -/
theorem C2_roundtrip_amended_witness :
    pathParent (invoice_to_name invNV) = some invNV.bindle.name ∧
    pathFileName (invoice_to_name invNV) = some invNV.bindle.version ∧
    (create_invoice stX idxOk fs0 invNV).res = Except.ok [] ∧
    get_invoice stX (create_invoice stX idxOk fs0 invNV).fs (invoice_to_name invNV) =
      Except.ok invNV :=
  ⟨rfl, rfl, rfl, (C2_roundtrip_amended stX idxOk fs0 invNV [] rfl rfl rfl).1⟩

/-- Invoice with an empty bindle name, which aliases with the separator-free
identifier "foo". -/
def invE0 : Invoice := ⟨"1.0.0", ⟨"", "foo", none, none⟩, none, none, none, none⟩

/-- C3 counterexample: for the separator-free identifier "foo",
`Path::parent` is `Some("")`, not `None`, so the parse guard does not fire:
on a fresh store the read fails with the I/O not-found error — not the
`NotFound` kind — and after creating an invoice with empty name and version
"foo" the same read even succeeds. -/
theorem C3_parse_counterexample :
    get_yanked_invoice stX fs0 "foo" =
      Except.error (StorageError.ioErr IOErrorKind.notFound) ∧
    get_yanked_invoice stX fs0 "foo" ≠ Except.error StorageError.NotFound ∧
    (create_invoice stX idxOk fs0 invE0).res = Except.ok [] ∧
    get_yanked_invoice stX (create_invoice stX idxOk fs0 invE0).fs "foo" = Except.ok invE0 ∧
    get_yanked_invoice stX (create_invoice stX idxOk fs0 invE0).fs "foo" ≠
      Except.error StorageError.NotFound :=
  ⟨rfl, fun h => StorageError.noConfusion (Except.error.inj h), rfl, rfl,
    fun h => Except.noConfusion h⟩

/-- C3 (amended): the reads fail with `NotFound` exactly at the parse stage —
when the identifier has no parent component (such as the empty string) or no
final normal segment; a non-empty separator-free identifier other than "."
and ".." is instead parsed as name "" and version equal to the whole string
and looked up normally (never panicking — the model is total — but failing
with an I/O error, or even succeeding, depending on the store). -/
theorem C3_parse_amended :
    (∀ (st : FileStorage) (fs : FS) (id : String), pathParent id = none →
      get_yanked_invoice st fs id = Except.error StorageError.NotFound ∧
      get_invoice st fs id = Except.error StorageError.NotFound) ∧
    (∀ (st : FileStorage) (fs : FS) (id n : String),
      pathParent id = some n → pathFileName id = none →
      get_yanked_invoice st fs id = Except.error StorageError.NotFound ∧
      get_invoice st fs id = Except.error StorageError.NotFound) ∧
    (∀ (st : FileStorage) (fs : FS) (s : String),
      decide ('/' ∈ s.toList) = false → s ≠ "" → s ≠ "." → s ≠ ".." →
      get_yanked_invoice st fs s = loadInvoice st fs "" s) := by
  refine ⟨?_, ?_, ?_⟩
  · intro st fs id hpp
    have hgy : get_yanked_invoice st fs id = Except.error StorageError.NotFound := by
      unfold get_yanked_invoice
      simp only [hpp]
    refine ⟨hgy, ?_⟩
    unfold get_invoice
    simp only [hgy]
  · intro st fs id n hpp hfn
    have hgy : get_yanked_invoice st fs id = Except.error StorageError.NotFound := by
      unfold get_yanked_invoice
      simp only [hpp, hfn]
    refine ⟨hgy, ?_⟩
    unfold get_invoice
    simp only [hgy]
  · intro st fs s h h1 h2 h3
    unfold get_yanked_invoice
    simp only [pathParent_no_sep s h h1 h2, pathFileName_no_sep s h h1 h2 h3]

/-- Witness for C3 (amended): parse failures at "" and "a/..", and the
name-""-aliasing of the separator-free identifier "bar". -/
theorem C3_parse_amended_witness :
    (get_yanked_invoice stX fs0 "" = Except.error StorageError.NotFound ∧
     get_invoice stX fs0 "" = Except.error StorageError.NotFound) ∧
    (get_yanked_invoice stX fs0 "a/.." = Except.error StorageError.NotFound ∧
     get_invoice stX fs0 "a/.." = Except.error StorageError.NotFound) ∧
    get_yanked_invoice stX fs0 "bar" = loadInvoice stX fs0 "" "bar" :=
  ⟨C3_parse_amended.1 stX fs0 "" rfl,
   C3_parse_amended.2.1 stX fs0 "a/.." "a" rfl rfl,
   C3_parse_amended.2.2 stX fs0 "bar" rfl (by decide) (by decide) (by decide)⟩

/-- C5 counterexample: for the invoice with version "..", creation and the
yank write both succeed, yet `get_invoice` on its identifier fails with
`NotFound` — not `Yanked` — and `get_yanked_invoice` fails rather than
reporting the yanked invoice, so the yank-then-read clause is false as
stated for arbitrary identifiers. -/
theorem C5_yank_read_counterexample :
    (create_invoice stX idxOk fs0 invDD).res = Except.ok [] ∧
    (yank_invoice stX idxOk (create_invoice stX idxOk fs0 invDD).fs invDD).res =
      Except.ok () ∧
    get_invoice stX (yank_invoice stX idxOk (create_invoice stX idxOk fs0 invDD).fs invDD).fs
      (invoice_to_name invDD) = Except.error StorageError.NotFound ∧
    get_yanked_invoice stX
      (yank_invoice stX idxOk (create_invoice stX idxOk fs0 invDD).fs invDD).fs
      (invoice_to_name invDD) = Except.error StorageError.NotFound :=
  ⟨rfl, rfl, rfl, rfl⟩

/-- C5 (amended): `get_invoice` delegates to `get_yanked_invoice` — a yanked
result becomes the `Yanked` error, errors propagate unchanged, and a
non-yanked invoice is returned; and after yanking a created invoice whose
identifier parses back to its (name, version), `get_invoice` fails with
`Yanked` while `get_yanked_invoice` returns the invoice with
`yanked = some true`. -/
theorem C5_get_invoice_amended :
    (∀ (st : FileStorage) (fs : FS) (id : String) (inv : Invoice),
      get_yanked_invoice st fs id = Except.ok inv → inv.yanked.getD false = true →
      get_invoice st fs id = Except.error StorageError.Yanked) ∧
    (∀ (st : FileStorage) (fs : FS) (id : String) (e : StorageError),
      get_yanked_invoice st fs id = Except.error e →
      get_invoice st fs id = Except.error e) ∧
    (∀ (st : FileStorage) (fs : FS) (id : String) (inv : Invoice),
      get_yanked_invoice st fs id = Except.ok inv → inv.yanked.getD false = false →
      get_invoice st fs id = Except.ok inv) ∧
    (∀ (st : FileStorage) (idx idx2 : IndexFn) (fs : FS) (inv : Invoice) (ls : List Label),
      pathParent (invoice_to_name inv) = some inv.bindle.name →
      pathFileName (invoice_to_name inv) = some inv.bindle.version →
      (create_invoice st idx fs inv).res = Except.ok ls →
      get_invoice st (yank_invoice st idx2 (create_invoice st idx fs inv).fs inv).fs
          (invoice_to_name inv) = Except.error StorageError.Yanked ∧
      get_yanked_invoice st (yank_invoice st idx2 (create_invoice st idx fs inv).fs inv).fs
          (invoice_to_name inv) = Except.ok { inv with yanked := some true } ∧
      ({ inv with yanked := some true } : Invoice).yanked = some true) := by
  refine ⟨?_, ?_, ?_, ?_⟩
  · intro st fs id inv hgy hy
    unfold get_invoice
    simp only [hgy, hy, if_true]
  · intro st fs id e hgy
    unfold get_invoice
    simp only [hgy]
  · intro st fs id inv hgy hy
    unfold get_invoice
    simp only [hgy, hy, Bool.false_eq_true, if_false]
  · intro st idx idx2 fs inv ls hpar hfn hok
    obtain ⟨hy, ⟨fs1, hd, hw⟩, -⟩ := create_res_ok_shape st idx fs inv ls hok
    obtain ⟨-, -, hins⟩ := FS.createNew_ok fs1 (invDest st inv) (FileData.invoiceToml inv)
      (create_invoice st idx fs inv).fs hw
    have hlk : (create_invoice st idx fs inv).fs.lookup (invDest st inv) =
        some (FsEntry.file (FileData.invoiceToml inv)) := by
      rw [hins]
      exact FS.lookup_insert_self fs1 (invDest st inv) (FsEntry.file (FileData.invoiceToml inv))
    have hyank : (yank_invoice st idx2 (create_invoice st idx fs inv).fs inv).fs =
        (create_invoice st idx fs inv).fs.insert (invDest st inv)
          (FsEntry.file (FileData.invoiceToml { inv with yanked := some true })) := by
      rw [yank_invoice_eq,
        FS.writeFile_overwrite (create_invoice st idx fs inv).fs (invDest st inv) _ _ hlk]
    have hlk2 : (yank_invoice st idx2 (create_invoice st idx fs inv).fs inv).fs.lookup
        (invDest st inv) =
        some (FsEntry.file (FileData.invoiceToml { inv with yanked := some true })) := by
      rw [hyank]
      exact FS.lookup_insert_self _ _ _
    have hgy := gyi_of_manifest st (yank_invoice st idx2 (create_invoice st idx fs inv).fs inv).fs
      inv { inv with yanked := some true } hpar hfn hlk2
    refine ⟨?_, hgy, rfl⟩
    unfold get_invoice
    simp only [hgy]
    rfl

/-- Witness for C5 (amended): the yank-then-read scenario at a well-formed
identifier, with a failing index on the yank path. -/
theorem C5_get_invoice_amended_witness :
    get_invoice stX (yank_invoice stX idxBad (create_invoice stX idxOk fs0 invNV).fs invNV).fs
      (invoice_to_name invNV) = Except.error StorageError.Yanked ∧
    get_yanked_invoice stX
      (yank_invoice stX idxBad (create_invoice stX idxOk fs0 invNV).fs invNV).fs
      (invoice_to_name invNV) = Except.ok { invNV with yanked := some true } ∧
    ({ invNV with yanked := some true } : Invoice).yanked = some true :=
  C5_get_invoice_amended.2.2.2 stX idxOk idxBad fs0 invNV [] rfl rfl rfl

/-- C6 counterexample: yanking a never-created invoice on the empty store
does not materialize a manifest — `std::fs::write` fails with the I/O
not-found error because the invoice directory does not exist, and the store
is unchanged. -/
theorem C6_yank_counterexample :
    fs0.entries = [] ∧
    (yank_invoice stX idxOk fs0 invNV).res =
      Except.error (StorageError.ioErr IOErrorKind.notFound) ∧
    (yank_invoice stX idxOk fs0 invNV).fs = fs0 :=
  ⟨rfl, rfl, rfl⟩

/-- C6 (amended): `yank_invoice` sets the structure's yanked field to true
and computes the manifest path from the structure's own (name, version); on
success it unconditionally overwrites whatever file is at that path, and it
creates the file when absent provided the invoice directory exists; when the
manifest is absent and the directory is missing too (a never-created
invoice), the write fails with an I/O not-found error and nothing is
materialized. -/
theorem C6_yank_amended :
    (∀ (st : FileStorage) (idx : IndexFn) (fs : FS) (inv0 : Invoice),
      (yank_invoice st idx fs inv0).inv = { inv0 with yanked := some true }) ∧
    (∀ (st : FileStorage) (idx : IndexFn) (fs : FS) (inv0 : Invoice) (d : FileData),
      fs.lookup (invDest st inv0) = some (FsEntry.file d) →
      (yank_invoice st idx fs inv0).res = Except.ok () ∧
      (yank_invoice st idx fs inv0).fs = fs.insert (invDest st inv0)
        (FsEntry.file (FileData.invoiceToml { inv0 with yanked := some true }))) ∧
    (∀ (st : FileStorage) (idx : IndexFn) (fs : FS) (inv0 : Invoice),
      fs.lookup (invDest st inv0) = none →
      fs.lookup (invDest st inv0).dropLast = some FsEntry.dir →
      (yank_invoice st idx fs inv0).res = Except.ok () ∧
      (yank_invoice st idx fs inv0).fs = fs.insert (invDest st inv0)
        (FsEntry.file (FileData.invoiceToml { inv0 with yanked := some true }))) ∧
    (∀ (st : FileStorage) (idx : IndexFn) (fs : FS) (inv0 : Invoice),
      fs.lookup (invDest st inv0) = none →
      fs.lookup (invDest st inv0).dropLast ≠ some FsEntry.dir →
      (yank_invoice st idx fs inv0).res =
        Except.error (StorageError.ioErr IOErrorKind.notFound) ∧
      (yank_invoice st idx fs inv0).fs = fs) := by
  refine ⟨?_, ?_, ?_, ?_⟩
  · intro st idx fs inv0
    rw [yank_invoice_eq]
    cases fs.writeFile (invDest st inv0)
      (FileData.invoiceToml { inv0 with yanked := some true }) <;> rfl
  · intro st idx fs inv0 d h
    rw [yank_invoice_eq, FS.writeFile_overwrite fs (invDest st inv0) _ d h]
    exact ⟨rfl, rfl⟩
  · intro st idx fs inv0 h1 h2
    rw [yank_invoice_eq, FS.writeFile_create fs (invDest st inv0) _ h1 h2]
    exact ⟨rfl, rfl⟩
  · intro st idx fs inv0 h1 h2
    rw [yank_invoice_eq, FS.writeFile_noParent fs (invDest st inv0) _ h1 h2]
    exact ⟨rfl, rfl⟩

/-- Store holding only the invoice directory of `invNV` under the stand-in
digest, with no manifest inside. -/
def fsDir : FS :=
  ⟨[(["r"], FsEntry.dir), (["r", "invoices"], FsEntry.dir),
    (["r", "invoices", "nv"], FsEntry.dir)], []⟩

/-- Witness for C6 (amended): mutation always happens; overwrite of an
existing manifest; materialization when only the directory exists; failure
on the empty store. -/
theorem C6_yank_amended_witness :
    (yank_invoice stX idxOk fs0 invNV).inv = { invNV with yanked := some true } ∧
    ((yank_invoice stX idxOk (create_invoice stX idxOk fs0 invNV).fs invNV).res =
        Except.ok () ∧
      (yank_invoice stX idxOk (create_invoice stX idxOk fs0 invNV).fs invNV).fs =
        (create_invoice stX idxOk fs0 invNV).fs.insert (invDest stX invNV)
          (FsEntry.file (FileData.invoiceToml { invNV with yanked := some true }))) ∧
    ((yank_invoice stX idxOk fsDir invNV).res = Except.ok () ∧
      (yank_invoice stX idxOk fsDir invNV).fs = fsDir.insert (invDest stX invNV)
        (FsEntry.file (FileData.invoiceToml { invNV with yanked := some true }))) ∧
    ((yank_invoice stX idxOk fs0 invNV).res =
        Except.error (StorageError.ioErr IOErrorKind.notFound) ∧
      (yank_invoice stX idxOk fs0 invNV).fs = fs0) :=
  ⟨C6_yank_amended.1 stX idxOk fs0 invNV,
   C6_yank_amended.2.1 stX idxOk (create_invoice stX idxOk fs0 invNV).fs invNV
     (FileData.invoiceToml invNV) rfl,
   C6_yank_amended.2.2.1 stX idxOk fsDir invNV rfl rfl,
   C6_yank_amended.2.2.2 stX idxOk fs0 invNV rfl (by decide)⟩

end Bindle
